/-
Verification of the style-profile extraction engine
(src/scripts/extract_style.py, function `analyze_style`).

The engine is shallowly embedded below.  Python floats are modelled by `Rat`
(all quantities the claims mention are ratios of integers); Python `round(x, n)`
is modelled by round-half-to-even on rationals; the external NLTK services
(word/sentence tokenizers, the VADER compound scorer, the stopword list) are
parameters of the engine, bundled in the `NLP` record, exactly as
`analyze_style(messages, stop_words, sia)` receives them from its caller.
All hard-coded lexicons (slang words, greetings, farewells, topic keywords,
emoji character ranges) are transcribed literally from the source.
-/
import Mathlib

namespace ExtractStyle

/-- A chat message as consumed by `analyze_style`: the fields the function
reads are `text` (absent text is modelled as `""`, matching Python's
`m.get("text")` falsiness), `is_from_me`, and `date`.  A date is modelled as
an epoch timestamp in seconds; `none` models a string on which
`datetime.fromisoformat` raises. -/
structure Message where
  text : String
  is_from_me : Bool
  date : Option Int
  deriving Repr, DecidableEq

/-- The external NLTK resources handed to `analyze_style`: `word_tokenize`,
`sent_tokenize`, the VADER compound score `sia.polarity_scores(t)["compound"]`,
and the stopword list. -/
structure NLP where
  word_tokenize : String → List String
  sent_tokenize : String → List String
  compound : String → Rat
  stop_words : List String

/-! ### Generic helpers: counters, stable sorting, substrings, rounding -/

/-- Index of the first occurrence of `x` in `l` (`l.length` when absent). -/
def firstIdx [DecidableEq α] : List α → α → Nat
  | [], _ => 0
  | y :: ys, x => if x = y then 0 else firstIdx ys x + 1

/-- First-occurrence deduplication, the key order of a Python `Counter`. -/
def dedupFirstAux [DecidableEq α] (seen : List α) : List α → List α
  | [] => []
  | x :: xs => if x ∈ seen then dedupFirstAux seen xs else x :: dedupFirstAux (x :: seen) xs

def dedupFirst [DecidableEq α] (l : List α) : List α := dedupFirstAux [] l

/-- The `(key, count)` items of `Counter(l)`, keys in first-encountered order. -/
def counterItems [DecidableEq α] (l : List α) : List (α × Nat) :=
  (dedupFirst l).map (fun x => (x, l.count x))

/-- Stable insertion of a counted item into a count-descending list: the new
item goes in front of the first element whose count does not exceed it. -/
def insertCnt (x : α × Nat) : List (α × Nat) → List (α × Nat)
  | [] => [x]
  | y :: ys => if y.2 ≤ x.2 then x :: y :: ys else y :: insertCnt x ys

/-- Stable sort by descending count, the order of Python's
`sorted(items, key=lambda kv: -kv[1])` (ties keep list order). -/
def sortByCountDesc (l : List (α × Nat)) : List (α × Nat) := l.foldr insertCnt []

/-- `Counter(l).most_common n`: items sorted by descending count, ties in
first-encountered order, truncated to `n`. -/
def mostCommon [DecidableEq α] (l : List α) (n : Nat) : List (α × Nat) :=
  (sortByCountDesc (counterItems l)).take n

/-- Python `sorted` on strings (lexicographic by code point). -/
def sortStrings (l : List String) : List String := l.insertionSort (· ≤ ·)

/-- Python `sorted` on naturals. -/
def sortNats (l : List Nat) : List Nat := l.insertionSort (· ≤ ·)

/-- Python `str.count`: number of non-overlapping occurrences of `pat`,
scanning left to right. -/
def countSubstrAux (pat : List Char) : List Char → Nat
  | [] => 0
  | c :: cs =>
    if pat.isPrefixOf (c :: cs) then
      1 + countSubstrAux pat (List.drop (pat.length - 1) cs)
    else
      countSubstrAux pat cs
  termination_by s => s.length
  decreasing_by
  · simp only [List.length_drop, List.length_cons]; omega
  · simp only [List.length_cons]; omega

def countSubstr (pat s : String) : Nat := countSubstrAux pat.data s.data

/-- Python `pat in s` (substring containment). -/
def containsSub (pat s : String) : Bool := countSubstr pat s != 0

/-- Round-half-to-even to an integer, the behaviour of Python `round`. -/
def roundHalfEven (q : Rat) : Int :=
  if q - (⌊q⌋ : Rat) < 1/2 then ⌊q⌋
  else if 1/2 < q - (⌊q⌋ : Rat) then ⌊q⌋ + 1
  else if ⌊q⌋ % 2 = 0 then ⌊q⌋ else ⌊q⌋ + 1

/-- Python `round(q, d)`. -/
def roundTo (q : Rat) (d : Nat) : Rat :=
  (roundHalfEven (q * (10 : Rat) ^ d) : Rat) / (10 : Rat) ^ d

/-- Python `str.islower()` on a single character (ASCII range). -/
def isLowerCh (c : Char) : Bool := 97 ≤ c.toNat && c.toNat ≤ 122

/-- Python `str.isupper()` on a single character (ASCII range). -/
def isUpperCh (c : Char) : Bool := 65 ≤ c.toNat && c.toNat ≤ 90

/-- Python `tok.isalpha()`: non-empty and all characters alphabetic. -/
def isalphaStr (s : String) : Bool := !s.isEmpty && s.data.all Char.isAlpha

/-- Membership in the character classes of the `emoji_pattern` regex
(extract_style.py lines 69-75), transcribed range by range. -/
def isEmojiChar (c : Char) : Bool :=
  let n := c.toNat
  (0x1F600 ≤ n && n ≤ 0x1F64F) || (0x1F300 ≤ n && n ≤ 0x1F5FF) ||
  (0x1F680 ≤ n && n ≤ 0x1F6FF) || (0x1F1E0 ≤ n && n ≤ 0x1F1FF) ||
  (0x2702 ≤ n && n ≤ 0x27B0) || (0x24C2 ≤ n && n ≤ 0x1F251) ||
  (0x1F900 ≤ n && n ≤ 0x1F9FF) || (0x1FA00 ≤ n && n ≤ 0x1FA6F) ||
  (0x1FA70 ≤ n && n ≤ 0x1FAFF) || (0x2600 ≤ n && n ≤ 0x26FF)

/-- Maximal runs of emoji characters: the matches of `emoji_pattern.findall`
(the pattern is a character class followed by `+`). -/
def emojiRunsAux (cur : List Char) : List Char → List (List Char)
  | [] => if cur = [] then [] else [cur.reverse]
  | c :: cs =>
    if isEmojiChar c then emojiRunsAux (c :: cur) cs
    else if cur = [] then emojiRunsAux [] cs
    else cur.reverse :: emojiRunsAux [] cs

def emojiRuns (s : String) : List String := (emojiRunsAux [] s.data).map String.mk

/-- `emoji_pattern.fullmatch(t)` succeeds: non-empty and emoji-only. -/
def isEmojiOnly (s : String) : Bool := !s.isEmpty && s.data.all isEmojiChar

/-- `nltk.ngrams(tokens, 2)` rendered by joining each pair with one space. -/
def bigramsOf : List String → List String
  | a :: b :: rest => (a ++ " " ++ b) :: bigramsOf (b :: rest)
  | _ => []

/-- `datetime.fromisoformat(...).hour` of an epoch-seconds timestamp. -/
def hourOf (t : Int) : Nat := ((t % 86400) / 3600).toNat

/-- The apostrophe character (code point 39), the literal of line 66. -/
def apostrophe : String := String.mk [Char.ofNat 39]

/-! ### Hard-coded lexicons (extract_style.py lines 102-108, 140, 144, 197-206) -/

/-- Slang lexicon, line 102-108.  In the source this is a Python `set`;
the list order below is the literal order of the source text. -/
def slang_words : List String :=
  ["lmao", "lol", "bruh", "bro", "bet", "nah", "fr", "ngl", "tbh",
   "lowkey", "highkey", "imo", "idk", "idc", "smh", "wya", "wyd",
   "omg", "af", "rn", "fam", "goated", "cooked", "bussin", "cap",
   "slay", "vibe", "lit", "sus", "deadass", "hella",
   "finna", "yall", "aight", "yo", "ong", "ts", "shi", "dawg"]

/-- Greeting lexicon, line 140 (a Python `set` in the source). -/
def greetings : List String :=
  ["hey", "hi", "hello", "yo", "sup", "whats up", "heyy", "heyyy", "hii", "yoo", "ayy"]

/-- Farewell lexicon, line 144 (a Python `set` in the source). -/
def farewells : List String :=
  ["bye", "cya", "later", "peace", "gn", "goodnight", "night", "bet", "aight", "ttyl"]

/-- Filler-word list, line 254. -/
def filler_list : List String :=
  ["like", "just", "actually", "literally", "basically", "ngl", "tbh", "lowkey"]

/-- Topic keyword table, lines 197-206, in declaration order (a Python `dict`,
whose iteration order is its insertion order). -/
def topic_keywords : List (String × List String) :=
  [("food", ["food", "eat", "dinner", "lunch", "hungry", "restaurant", "pizza", "sushi", "ramen"]),
   ("gaming", ["game", "play", "gaming", "xbox", "ps5", "pc", "valorant", "league", "fortnite"]),
   ("school", ["class", "exam", "midterm", "final", "homework", "prof", "lecture", "study"]),
   ("sports", ["game", "goal", "score", "team", "play", "win", "lost", "season"]),
   ("music", ["song", "album", "playlist", "listen", "concert", "spotify"]),
   ("movies", ["movie", "film", "watch", "netflix", "show", "series", "episode"]),
   ("travel", ["trip", "travel", "flight", "hotel", "vacation", "airport"]),
   ("work", ["work", "job", "meeting", "boss", "office", "deadline"])]

def topic_names : List String := topic_keywords.map Prod.fst

/-! ### The analyzers of `analyze_style` -/

/-- Line 42: `my_messages = [m for m in messages if m["is_from_me"] and m.get("text")]`. -/
def myMessagesOf (messages : List Message) : List Message :=
  messages.filter (fun m => m.is_from_me && (m.text != ""))

/-- Lines 50-51 predicates: `t and t[0].islower()` / `t[0].isupper()`. -/
def startsLower (t : String) : Bool := !t.isEmpty && isLowerCh t.front
def startsUpper (t : String) : Bool := !t.isEmpty && isUpperCh t.front

/-- Lines 49-58: capitalization classification. -/
def capitalization (texts : List String) : String :=
  if (0.8 : Rat) < (texts.countP startsLower : Rat) / (texts.length : Rat) then "never"
  else if (0.8 : Rat) < (texts.countP startsUpper : Rat) / (texts.length : Rat) then "always"
  else "mixed"

/-- Lines 215-223: the frequency labeler. -/
def freq_label (ratio : Rat) : String :=
  if ratio < 0.05 then "rarely"
  else if ratio < 0.2 then "sometimes"
  else if ratio < 0.5 then "often"
  else "frequently"

/-- Lines 76-78: every emoji-pattern match across the texts, in text order. -/
def all_emojis (texts : List String) : List String := (texts.map emojiRuns).flatten

/-- Line 79: `emoji_freq = len(all_emojis) / total if total > 0 else 0`. -/
def emoji_freq (texts : List String) : Rat :=
  if 0 < texts.length then ((all_emojis texts).length : Rat) / (texts.length : Rat) else 0

/-- Line 80: `top_emojis = [e for e, _ in Counter(all_emojis).most_common(5)]`. -/
def top_emojis (texts : List String) : List String :=
  (mostCommon (all_emojis texts) 5).map Prod.fst

/-- Lines 83-88: alphabetic word tokens of the lower-cased texts. -/
def all_tokens (nlp : NLP) (texts : List String) : List String :=
  (texts.map (fun t => (nlp.word_tokenize t.toLower).filter isalphaStr)).flatten

/-- Line 89: all sentences of all texts. -/
def all_sentences (nlp : NLP) (texts : List String) : List String :=
  (texts.map nlp.sent_tokenize).flatten

/-- Lines 94-99: average words per sentence, defaulting to 5.0. -/
def avg_words_per_sentence (nlp : NLP) (texts : List String) : Rat :=
  let counts := (all_sentences nlp texts).map (fun s => (nlp.word_tokenize s).length)
  if counts.isEmpty then 5 else (counts.sum : Rat) / (counts.length : Rat)

/-- Line 109: slang terms used at least 3 times. -/
def used_slang (slang : List String) (tokens : List String) : List String :=
  slang.filter (fun w => 3 ≤ tokens.count w)

/-- Line 110: slang level from the number of used slang terms. -/
def slang_level (slang : List String) (tokens : List String) : String :=
  if 5 < (used_slang slang tokens).length then "high"
  else if 2 < (used_slang slang tokens).length then "medium"
  else "low"

/-- Lines 113-117: stopword-filtered bigrams over all texts. -/
def filtered_bigrams (nlp : NLP) (texts : List String) : List String :=
  (texts.map (fun t =>
    let tokens := ((nlp.word_tokenize t).filter isalphaStr).map String.toLower
    bigramsOf (tokens.filter (fun tok => !nlp.stop_words.contains tok)))).flatten

/-- Line 118: up to 10 most frequent bigrams with count at least 3. -/
def top_bigrams (nlp : NLP) (texts : List String) : List String :=
  ((mostCommon (filtered_bigrams nlp texts) 10).filter (fun bc => 3 ≤ bc.2)).map Prod.fst

/-- Lines 120-122: type-token ratio, 0 when no tokens exist. -/
def vocabulary_richness (nlp : NLP) (texts : List String) : Rat :=
  let tokens := all_tokens nlp texts
  if tokens.isEmpty then 0
  else ((dedupFirst tokens).length : Rat) / (tokens.length : Rat)

/-- Line 125: per-message compound scores. -/
def compoundsOf (nlp : NLP) (texts : List String) : List Rat := texts.map nlp.compound

/-- Line 126: average compound score, 0 when no messages. -/
def avg_compound (nlp : NLP) (texts : List String) : Rat :=
  let cs := compoundsOf nlp texts
  if cs.isEmpty then 0 else cs.sum / (cs.length : Rat)

/-- Line 127: fraction of messages with compound score above 0.05. -/
def pos_ratio (nlp : NLP) (texts : List String) : Rat :=
  let cs := compoundsOf nlp texts
  if cs.isEmpty then 0 else (cs.countP (fun c => 0.05 < c) : Rat) / (cs.length : Rat)

/-- Line 128: fraction of messages with compound score below -0.05. -/
def neg_ratio (nlp : NLP) (texts : List String) : Rat :=
  let cs := compoundsOf nlp texts
  if cs.isEmpty then 0 else (cs.countP (fun c => c < -0.05) : Rat) / (cs.length : Rat)

/-- Lines 130-137: tone classification. -/
def tone_label (avg pos neg : Rat) : String :=
  if 0.15 < avg then "positive"
  else if avg < -0.15 then "negative"
  else if 0.4 < pos ∧ 0.2 < neg then "mixed"
  else "neutral"

/-- Lines 148-162: the burst-detection forward scan.  `cur` is the length of
the subject run ending just before the cursor. -/
def burstLengthsAux (cur : Nat) : List Message → List Nat
  | [] => if 1 < cur then [cur] else []
  | m :: ms =>
    if m.is_from_me then burstLengthsAux (cur + 1) ms
    else if 1 < cur then cur :: burstLengthsAux 0 ms
    else burstLengthsAux 0 ms

/-- Lines 148-162: `burst_lengths` (lengths of subject runs longer than 1). -/
def burst_lengths (messages : List Message) : List Nat := burstLengthsAux 0 messages

/-- Lines 148-162: `consecutive_bursts` increments exactly when a length is
appended to `burst_lengths`. -/
def consecutive_bursts (messages : List Message) : Nat := (burst_lengths messages).length

/-- Lines 164-165 inner sum: adjacent positions where a subject message
immediately follows an other-party message. -/
def countResponses : List Message → Nat
  | a :: b :: rest => (if b.is_from_me && !a.is_from_me then 1 else 0) + countResponses (b :: rest)
  | _ => 0

/-- Lines 164-165: `total_responses = max(1, ...)`. -/
def total_responses (messages : List Message) : Nat := max 1 (countResponses messages)

/-- Lines 170-180: response-time samples in minutes, kept only when
`0 < delta < 1440`; a pair whose timestamps fail to parse is skipped. -/
def response_times : List Message → List Rat
  | a :: b :: rest =>
    (if b.is_from_me && !a.is_from_me then
      match a.date, b.date with
      | some t1, some t2 =>
        if 0 < ((t2 - t1 : Int) : Rat) / 60 ∧ ((t2 - t1 : Int) : Rat) / 60 < 1440 then
          [((t2 - t1 : Int) : Rat) / 60]
        else []
      | _, _ => []
    else []) ++ response_times (b :: rest)
  | _ => []

/-- Lines 186-192: hour of day per subject message with a parsable date. -/
def hoursOf (my_messages : List Message) : List Nat :=
  my_messages.filterMap (fun m => m.date.map hourOf)

/-- Lines 193-194: the 10 most frequent hours. -/
def active_hours (my_messages : List Message) : List Nat :=
  (mostCommon (hoursOf my_messages) 10).map Prod.fst

/-- Line 208: the concatenated, lower-cased subject text. -/
def all_text (texts : List String) : String := (String.intercalate " " texts).toLower

/-- Line 210: a topic's keyword score. -/
def topic_score (txt : String) (kws : List String) : Nat :=
  (kws.map (fun k => countSubstr k txt)).sum

/-- Lines 207-212: the qualifying topics (score at least 5) with their scores,
in declaration order of the topic table. -/
def topic_scores (texts : List String) : List (String × Nat) :=
  topic_keywords.filterMap (fun p =>
    let s := topic_score (all_text texts) p.2
    if 5 ≤ s then some (p.1, s) else none)

/-- Line 213: up to 5 qualifying topics by descending score, ties in
declaration order. -/
def common_topics (texts : List String) : List String :=
  ((sortByCountDesc (topic_scores texts)).take 5).map Prod.fst

/-! ### Profile sections (the returned dict, lines 225-284) -/

structure MessageStats where
  total_messages_from_you : Nat
  avg_message_length : Nat
  median_message_length : Nat
  max_message_length : Nat
  messages_per_day_avg : Rat
  deriving Repr, DecidableEq

structure StyleSec where
  capitalization : String
  uses_periods : Bool
  uses_commas : String
  uses_exclamation : String
  uses_question_marks : Bool
  uses_ellipsis : Bool
  uses_apostrophes : Bool
  abbreviation_level : String
  avg_words_per_sentence : Rat
  deriving Repr, DecidableEq

structure EmojiSec where
  frequency : Rat
  top_emojis : List String
  uses_emoji_as_response : Bool
  deriving Repr, DecidableEq

structure VocabSec where
  slang_level : String
  top_phrases : List String
  greeting_patterns : List String
  farewell_patterns : List String
  filler_words : List String
  vocabulary_richness : Rat
  deriving Repr, DecidableEq

structure SentimentSec where
  avg_compound : Rat
  tone_label : String
  positivity_ratio : Rat
  negativity_ratio : Rat
  deriving Repr, DecidableEq

structure BehaviorSec where
  multi_message_tendency : Rat
  avg_messages_per_burst : Rat
  response_time_mean_minutes : Rat
  /-- Models the square of `rt_std` (line 183): the source stores
  `sqrt(variance)`, an irrational number; no claim reads this field, and the
  square determines the square root uniquely on nonnegative values.  The
  default branch (fewer than 2 samples) stores `3.0 ** 2 = 9`. -/
  response_time_var_minutes : Rat
  initiates_conversations : Bool
  initiation_frequency_per_week : Rat
  tapback_frequency : Rat
  leaves_on_read_frequency : Rat
  deriving Repr, DecidableEq

structure TopicsSec where
  common : List String
  avoids : List String
  inside_references : List String
  deriving Repr, DecidableEq

structure TimeSec where
  most_active_hours : List Nat
  morning_style : String
  evening_style : String
  weekend_vs_weekday : String
  deriving Repr, DecidableEq

structure StyleProfile where
  message_stats : MessageStats
  style : StyleSec
  emoji : EmojiSec
  vocabulary : VocabSec
  sentiment : SentimentSec
  behavior : BehaviorSec
  topics : TopicsSec
  time_patterns : TimeSec
  deriving Repr, DecidableEq

/-- Lines 226-232 (`int(...)` truncation of a nonnegative ratio is floor,
i.e. natural division; `max(lengths)` is defined since the subject subset is
non-empty whenever this is reached). -/
def messageStatsOf (messages my_messages : List Message) : MessageStats :=
  let texts := my_messages.map Message.text
  let lengths := texts.map String.length
  { total_messages_from_you := my_messages.length
    avg_message_length := lengths.sum / lengths.length
    median_message_length := (sortNats lengths).getD (lengths.length / 2) 0
    max_message_length := lengths.foldl max 0
    messages_per_day_avg :=
      roundTo ((my_messages.length : Rat) / max 1 ((messages.length : Rat) / 50)) 1 }

/-- Lines 60-66 and 233-243. -/
def styleSecOf (slang : List String) (nlp : NLP) (texts : List String) : StyleSec :=
  let total : Rat := (texts.length : Rat)
  { capitalization := capitalization texts
    uses_periods := decide ((0.3 : Rat) < (texts.countP (fun t => t.endsWith ".") : Rat) / total)
    uses_commas := freq_label ((texts.countP (fun t => containsSub "," t) : Rat) / total)
    uses_exclamation := freq_label ((texts.countP (fun t => containsSub "!" t) : Rat) / total)
    uses_question_marks := decide ((0.1 : Rat) < (texts.countP (fun t => containsSub "?" t) : Rat) / total)
    uses_ellipsis := decide ((0.05 : Rat) < (texts.countP (fun t => containsSub "..." t) : Rat) / total)
    uses_apostrophes := decide ((0.2 : Rat) < (texts.countP (fun t => containsSub apostrophe t) : Rat) / total)
    abbreviation_level := slang_level slang (all_tokens nlp texts)
    avg_words_per_sentence := roundTo (avg_words_per_sentence nlp texts) 1 }

/-- Lines 68-80 and 244-248. -/
def emojiSecOf (texts : List String) : EmojiSec :=
  { frequency := roundTo (emoji_freq texts) 3
    top_emojis := top_emojis texts
    uses_emoji_as_response := texts.any isEmojiOnly }

/-- Lines 249-256. -/
def vocabSecOf (slang greet fare : List String) (nlp : NLP) (texts : List String) : VocabSec :=
  let tokens := all_tokens nlp texts
  { slang_level := slang_level slang tokens
    top_phrases := (sortStrings (used_slang slang tokens)).take 10 ++ (top_bigrams nlp texts).take 5
    greeting_patterns := sortStrings (greet.filter (fun g => texts.any (fun t => t.toLower.startsWith g)))
    farewell_patterns := sortStrings (fare.filter (fun w => 2 ≤ tokens.count w))
    filler_words := filler_list.filter (fun w => 5 ≤ tokens.count w)
    vocabulary_richness := roundTo (vocabulary_richness nlp texts) 3 }

/-- Lines 257-262. -/
def sentimentSecOf (nlp : NLP) (texts : List String) : SentimentSec :=
  { avg_compound := roundTo (avg_compound nlp texts) 3
    tone_label := tone_label (avg_compound nlp texts) (pos_ratio nlp texts) (neg_ratio nlp texts)
    positivity_ratio := roundTo (pos_ratio nlp texts) 3
    negativity_ratio := roundTo (neg_ratio nlp texts) 3 }

/-- Lines 147-183 and 263-272 (the last four fields are the source's
documented static placeholders). -/
def behaviorSecOf (messages : List Message) : BehaviorSec :=
  let bl := burst_lengths messages
  let tr := total_responses messages
  let mmt : Rat := if 0 < tr then ((bl.length : Nat) : Rat) / (tr : Rat) else 0.3
  let ab : Rat := if bl.isEmpty then 1 else (bl.sum : Rat) / (bl.length : Rat)
  let rts := response_times messages
  let mean : Rat := if rts.isEmpty then 5 else rts.sum / (rts.length : Rat)
  let var : Rat :=
    if 1 < rts.length then ((rts.map (fun t => (t - mean) ^ 2)).sum) / (rts.length : Rat) else 9
  { multi_message_tendency := roundTo (min mmt 1) 2
    avg_messages_per_burst := roundTo ab 1
    response_time_mean_minutes := roundTo mean 1
    response_time_var_minutes := var
    initiates_conversations := true
    initiation_frequency_per_week := 3
    tapback_frequency := 0.1
    leaves_on_read_frequency := 0.05 }

/-- Lines 196-213 and 273-277. -/
def topicsSecOf (texts : List String) : TopicsSec :=
  { common := common_topics texts
    avoids := []
    inside_references := [] }

/-- Lines 185-194 and 278-283. -/
def timeSecOf (my_messages : List Message) : TimeSec :=
  let ah := active_hours my_messages
  { most_active_hours := sortNats ah
    morning_style := if ah.any (fun h => decide (h < 10)) then "minimal" else "inactive"
    evening_style := if ah.any (fun h => decide (18 ≤ h ∧ h ≤ 23)) then "engaged" else "inactive"
    weekend_vs_weekday := "similar" }

/-- `analyze_style`, parametrized additionally by the enumeration order of the
three hard-coded Python `set` lexicons (slang, greetings, farewells): a run of
the source enumerates each set in some arbitrary order, i.e. in some
permutation of the literal order. -/
def analyze_style_core (slang greet fare : List String) (nlp : NLP)
    (messages : List Message) : Option StyleProfile :=
  let my_messages := myMessagesOf messages
  if my_messages.length < 20 then none
  else
    let texts := my_messages.map Message.text
    some
      { message_stats := messageStatsOf messages my_messages
        style := styleSecOf slang nlp texts
        emoji := emojiSecOf texts
        vocabulary := vocabSecOf slang greet fare nlp texts
        sentiment := sentimentSecOf nlp texts
        behavior := behaviorSecOf messages
        topics := topicsSecOf texts
        time_patterns := timeSecOf my_messages }

/-- `analyze_style(messages, stop_words, sia)` with the lexicons in their
literal source order. -/
def analyze_style (nlp : NLP) (messages : List Message) : Option StyleProfile :=
  analyze_style_core slang_words greetings farewells nlp messages

/-! ### Further definitions used by the verification -/

/-- The order produced by `Counter.most_common`: strictly greater count first,
equal counts in first-encountered order. -/
def tieOrder [DecidableEq α] (l : List α) (a b : α × Nat) : Prop :=
  b.2 < a.2 ∨ (a.2 = b.2 ∧ firstIdx l a.1 < firstIdx l b.1)

/-- The two fields of a message that the timing analyses (burst detection,
response counting, response times) can observe. -/
def timingView (m : Message) : Bool × Option Int := (m.is_from_me, m.date)

/-- Whitespace splitting over the character list (used only to instantiate
the external tokenizer on concrete corpora). -/
def splitWordsAux (cur : List Char) : List Char → List String
  | [] => if cur = [] then [] else [String.mk cur.reverse]
  | c :: cs =>
    if c = ' ' then
      if cur = [] then splitWordsAux [] cs
      else String.mk cur.reverse :: splitWordsAux [] cs
    else splitWordsAux (c :: cur) cs

/-- A concrete instantiation of the external NLTK resources, used to evaluate
the engine on concrete corpora: whitespace word tokenization, one sentence per
message, compound score 0, no stopwords. -/
def simpleNLP : NLP :=
  { word_tokenize := fun s => splitWordsAux [] s.data
    sent_tokenize := fun s => [s]
    compound := fun _ => 0
    stop_words := [] }

/-- An instantiation of the external resources whose tokenizer returns the
single word `"hello"` for every input. -/
def helloNLP : NLP :=
  { word_tokenize := fun _ => ["hello"]
    sent_tokenize := fun s => [s]
    compound := fun _ => 0
    stop_words := [] }

/-- The six-message corpus `[them, me, me, me, them, me]` of the burst-counting
example, with one-minute spacing. -/
def sixMessageCorpus : List Message :=
  [⟨"a", false, some 0⟩, ⟨"b", true, some 60⟩, ⟨"c", true, some 120⟩,
   ⟨"d", true, some 180⟩, ⟨"e", false, some 240⟩, ⟨"f", true, some 300⟩]

/-! ### Helper lemmas: stable count-descending sort and counters -/

theorem insertCnt_perm (x : α × Nat) : ∀ l : List (α × Nat), List.Perm (insertCnt x l) (x :: l)
  | [] => List.Perm.refl _
  | y :: ys => by
    by_cases h : y.2 ≤ x.2
    · simp [insertCnt, h]
    · simpa [insertCnt, h] using ((insertCnt_perm x ys).cons y).trans (List.Perm.swap x y ys)

theorem sortByCountDesc_perm : ∀ l : List (α × Nat), List.Perm (sortByCountDesc l) l
  | [] => List.Perm.refl _
  | x :: xs => by
    simpa [sortByCountDesc] using
      (insertCnt_perm x (sortByCountDesc xs)).trans ((sortByCountDesc_perm xs).cons x)

theorem mem_sortByCountDesc {p : α × Nat} {l : List (α × Nat)} :
    p ∈ sortByCountDesc l ↔ p ∈ l :=
  (sortByCountDesc_perm l).mem_iff

theorem pairwise_insertCnt {S : α × Nat → α × Nat → Prop}
    (hmono : ∀ a b, S a b → b.2 ≤ a.2) (x : α × Nat) :
    ∀ l : List (α × Nat), List.Pairwise S l →
      (∀ b ∈ l, b.2 ≤ x.2 → S x b) → (∀ b ∈ l, ¬b.2 ≤ x.2 → S b x) →
      List.Pairwise S (insertCnt x l) := by
  intro l
  induction l with
  | nil => intro _ _ _; simp [insertCnt]
  | cons y ys ih =>
    intro h hxl hlx
    by_cases hc : y.2 ≤ x.2
    · rw [insertCnt, if_pos hc]
      refine List.Pairwise.cons ?_ h
      intro b hb
      rcases List.mem_cons.mp hb with rfl | hb
      · exact hxl b (List.mem_cons_self _ _) hc
      · exact hxl b (List.mem_cons_of_mem _ hb)
          (le_trans (hmono y b (List.rel_of_pairwise_cons h hb)) hc)
    · rw [insertCnt, if_neg hc]
      refine List.Pairwise.cons ?_ ?_
      · intro b hb
        rcases List.mem_cons.mp ((insertCnt_perm x ys).mem_iff.mp hb) with rfl | hb
        · exact hlx _ (List.mem_cons_self _ _) hc
        · exact List.rel_of_pairwise_cons h hb
      · exact ih h.of_cons
          (fun b hb hble => hxl b (List.mem_cons_of_mem _ hb) hble)
          (fun b hb hbgt => hlx b (List.mem_cons_of_mem _ hb) hbgt)

theorem pairwise_sortByCountDesc (T : α × Nat → α × Nat → Prop) :
    ∀ items : List (α × Nat), List.Pairwise T items →
      List.Pairwise (fun a b => b.2 < a.2 ∨ (a.2 = b.2 ∧ T a b)) (sortByCountDesc items) := by
  intro items
  induction items with
  | nil => intro _; simp [sortByCountDesc]
  | cons x xs ih =>
    intro hT
    have hx : ∀ b ∈ xs, T x b := fun b hb => List.rel_of_pairwise_cons hT hb
    show List.Pairwise _ (insertCnt x (sortByCountDesc xs))
    refine pairwise_insertCnt ?_ x (sortByCountDesc xs) (ih hT.of_cons) ?_ ?_
    · rintro a b (hlt | ⟨heq, _⟩)
      · exact le_of_lt hlt
      · exact le_of_eq heq.symm
    · intro b hb hble
      rcases lt_or_eq_of_le hble with hlt | heq
      · exact Or.inl hlt
      · exact Or.inr ⟨heq.symm, hx b (mem_sortByCountDesc.mp hb)⟩
    · intro b hb hbgt
      exact Or.inl (lt_of_not_le hbgt)

theorem mem_dedupFirstAux [DecidableEq α] :
    ∀ (l seen : List α) (a : α), a ∈ dedupFirstAux seen l ↔ a ∈ l ∧ a ∉ seen := by
  intro l
  induction l with
  | nil => intro seen a; simp [dedupFirstAux]
  | cons x xs ih =>
    intro seen a
    by_cases hx : x ∈ seen
    · rw [dedupFirstAux, if_pos hx, ih]
      constructor
      · rintro ⟨ha, hns⟩; exact ⟨List.mem_cons_of_mem _ ha, hns⟩
      · rintro ⟨ha, hns⟩
        rcases List.mem_cons.mp ha with rfl | ha
        · exact absurd hx hns
        · exact ⟨ha, hns⟩
    · rw [dedupFirstAux, if_neg hx]
      by_cases hax : a = x
      · subst hax; simp [hx]
      · constructor
        · intro h
          rcases List.mem_cons.mp h with rfl | h
          · exact absurd rfl hax
          · rcases (ih (x :: seen) a).mp h with ⟨ha, hns⟩
            exact ⟨List.mem_cons_of_mem _ ha, fun hs => hns (List.mem_cons_of_mem _ hs)⟩
        · rintro ⟨ha, hns⟩
          rcases List.mem_cons.mp ha with rfl | ha
          · exact absurd rfl hax
          · refine List.mem_cons_of_mem _ ((ih (x :: seen) a).mpr ⟨ha, ?_⟩)
            intro hmem
            rcases List.mem_cons.mp hmem with rfl | hs
            · exact hax rfl
            · exact hns hs

theorem mem_dedupFirst [DecidableEq α] {l : List α} {a : α} :
    a ∈ dedupFirst l ↔ a ∈ l := by
  rw [dedupFirst, mem_dedupFirstAux]; simp

theorem nodup_dedupFirstAux [DecidableEq α] :
    ∀ (l seen : List α), (dedupFirstAux seen l).Nodup := by
  intro l
  induction l with
  | nil => intro seen; simp [dedupFirstAux]
  | cons x xs ih =>
    intro seen
    by_cases hx : x ∈ seen
    · rw [dedupFirstAux, if_pos hx]; exact ih seen
    · rw [dedupFirstAux, if_neg hx]
      refine List.Nodup.cons ?_ (ih (x :: seen))
      intro hmem
      exact ((mem_dedupFirstAux xs (x :: seen) x).mp hmem).2 (List.mem_cons_self _ _)

theorem nodup_dedupFirst [DecidableEq α] (l : List α) : (dedupFirst l).Nodup :=
  nodup_dedupFirstAux l []

theorem firstIdx_cons_self [DecidableEq α] (x : α) (l : List α) :
    firstIdx (x :: l) x = 0 := by
  simp [firstIdx]

theorem firstIdx_cons_ne [DecidableEq α] {a x : α} (l : List α) (h : a ≠ x) :
    firstIdx (x :: l) a = firstIdx l a + 1 := by
  simp [firstIdx, h]

theorem pairwise_firstIdx_dedupFirstAux [DecidableEq α] :
    ∀ (l seen : List α),
      List.Pairwise (fun a b => firstIdx l a < firstIdx l b) (dedupFirstAux seen l) := by
  intro l
  induction l with
  | nil => intro seen; simp [dedupFirstAux]
  | cons x xs ih =>
    intro seen
    by_cases hx : x ∈ seen
    · rw [dedupFirstAux, if_pos hx]
      refine (ih seen).imp_of_mem ?_
      intro a b ha hb hab
      have hax : a ≠ x := fun h => ((mem_dedupFirstAux xs seen a).mp ha).2 (h ▸ hx)
      have hbx : b ≠ x := fun h => ((mem_dedupFirstAux xs seen b).mp hb).2 (h ▸ hx)
      rw [firstIdx_cons_ne xs hax, firstIdx_cons_ne xs hbx]
      omega
    · rw [dedupFirstAux, if_neg hx]
      refine List.Pairwise.cons ?_ ?_
      · intro b hb
        have hbx : b ≠ x := fun h =>
          ((mem_dedupFirstAux xs (x :: seen) b).mp hb).2 (h ▸ List.mem_cons_self x seen)
        rw [firstIdx_cons_self, firstIdx_cons_ne xs hbx]
        omega
      · refine (ih (x :: seen)).imp_of_mem ?_
        intro a b ha hb hab
        have hax : a ≠ x := fun h =>
          ((mem_dedupFirstAux xs (x :: seen) a).mp ha).2 (h ▸ List.mem_cons_self x seen)
        have hbx : b ≠ x := fun h =>
          ((mem_dedupFirstAux xs (x :: seen) b).mp hb).2 (h ▸ List.mem_cons_self x seen)
        rw [firstIdx_cons_ne xs hax, firstIdx_cons_ne xs hbx]
        omega

theorem pairwise_firstIdx_dedupFirst [DecidableEq α] (l : List α) :
    List.Pairwise (fun a b => firstIdx l a < firstIdx l b) (dedupFirst l) :=
  pairwise_firstIdx_dedupFirstAux l []

theorem mem_counterItems [DecidableEq α] {l : List α} {p : α × Nat} :
    p ∈ counterItems l ↔ p.1 ∈ l ∧ p.2 = l.count p.1 := by
  constructor
  · intro hp
    rcases List.mem_map.mp hp with ⟨x, hx, hfx⟩
    subst hfx
    exact ⟨mem_dedupFirst.mp hx, rfl⟩
  · rintro ⟨h1, h2⟩
    have hmem : (p.1, l.count p.1) ∈ counterItems l :=
      List.mem_map.mpr ⟨p.1, mem_dedupFirst.mpr h1, rfl⟩
    have hp : p = (p.1, l.count p.1) := Prod.ext_iff.mpr ⟨rfl, h2⟩
    rw [hp]
    exact hmem

theorem pairwise_firstIdx_counterItems [DecidableEq α] (l : List α) :
    List.Pairwise (fun a b : α × Nat => firstIdx l a.1 < firstIdx l b.1) (counterItems l) := by
  refine List.pairwise_map.mpr ?_
  exact pairwise_firstIdx_dedupFirst l

theorem pairwise_tieOrder_mostCommon [DecidableEq α] (l : List α) (n : Nat) :
    List.Pairwise (tieOrder l) (mostCommon l n) := by
  refine List.Pairwise.sublist (List.take_sublist n _) ?_
  exact pairwise_sortByCountDesc _ (counterItems l) (pairwise_firstIdx_counterItems l)

theorem mem_mostCommon [DecidableEq α] {l : List α} {n : Nat} {p : α × Nat}
    (hp : p ∈ mostCommon l n) : p.1 ∈ l ∧ p.2 = l.count p.1 :=
  mem_counterItems.mp (mem_sortByCountDesc.mp (List.mem_of_mem_take hp))

theorem length_mostCommon_le [DecidableEq α] (l : List α) (n : Nat) :
    (mostCommon l n).length ≤ n := by
  simp [mostCommon]

/-- Elements left out of `most_common n` have counts no larger than any
element kept: the kept elements are the `n` most frequent. -/
theorem mostCommon_maximal [DecidableEq α] {l : List α} {n : Nat} {e : α}
    (he : e ∈ l) (hout : ∀ c, (e, c) ∉ mostCommon l n) :
    ∀ p ∈ mostCommon l n, l.count e ≤ p.2 := by
  intro p hp
  have hmem : (e, l.count e) ∈ sortByCountDesc (counterItems l) :=
    mem_sortByCountDesc.mpr (mem_counterItems.mpr ⟨he, rfl⟩)
  have hsplit := List.take_append_drop n (sortByCountDesc (counterItems l))
  have hpair := pairwise_sortByCountDesc _ (counterItems l) (pairwise_firstIdx_counterItems l)
  rw [← hsplit] at hpair hmem
  rcases List.mem_append.mp hmem with hin | hin
  · exact absurd hin (hout (l.count e))
  · have := (List.pairwise_append.mp hpair).2.2 p hp (e, l.count e) hin
    rcases this with hlt | ⟨heq, _⟩
    · exact le_of_lt hlt
    · exact le_of_eq heq.symm

/-! ### Helper lemmas: sorted string lists, permutation stability -/

theorem sortStrings_sorted (l : List String) : List.Sorted (· ≤ ·) (sortStrings l) :=
  List.sorted_insertionSort _ l

theorem sortStrings_eq_of_perm {l1 l2 : List String} (h : List.Perm l1 l2) :
    sortStrings l1 = sortStrings l2 :=
  List.eq_of_perm_of_sorted
    ((List.perm_insertionSort _ l1).trans (h.trans (List.perm_insertionSort _ l2).symm))
    (sortStrings_sorted l1) (sortStrings_sorted l2)

theorem used_slang_perm {s1 s2 : List String} (h : List.Perm s1 s2) (tokens : List String) :
    List.Perm (used_slang s1 tokens) (used_slang s2 tokens) :=
  h.filter _

theorem slang_level_perm {s1 s2 : List String} (h : List.Perm s1 s2) :
    ∀ tokens, slang_level s1 tokens = slang_level s2 tokens := by
  intro tokens
  unfold slang_level
  rw [(used_slang_perm h tokens).length_eq]

theorem sortStrings_used_slang_perm {s1 s2 : List String} (h : List.Perm s1 s2) :
    ∀ tokens, sortStrings (used_slang s1 tokens) = sortStrings (used_slang s2 tokens) :=
  fun tokens => sortStrings_eq_of_perm (used_slang_perm h tokens)

theorem styleSecOf_perm {s1 s2 : List String} (h : List.Perm s1 s2) :
    ∀ nlp texts, styleSecOf s1 nlp texts = styleSecOf s2 nlp texts := by
  intro nlp texts
  simp only [styleSecOf]
  rw [slang_level_perm h]

theorem vocabSecOf_perm {s1 s2 g1 g2 f1 f2 : List String}
    (hs : List.Perm s1 s2) (hg : List.Perm g1 g2) (hf : List.Perm f1 f2) :
    ∀ nlp texts, vocabSecOf s1 g1 f1 nlp texts = vocabSecOf s2 g2 f2 nlp texts := by
  intro nlp texts
  simp only [vocabSecOf]
  rw [slang_level_perm hs, sortStrings_used_slang_perm hs,
    sortStrings_eq_of_perm (hg.filter _), sortStrings_eq_of_perm (hf.filter _)]

/-! ### Helper lemmas: disjoint predicate counts (capitalization) -/

theorem countP_add_countP_le_length (p q : α → Bool)
    (hpq : ∀ a, p a = true → q a = true → False) :
    ∀ l : List α, l.countP p + l.countP q ≤ l.length := by
  intro l
  induction l with
  | nil => simp
  | cons x xs ih =>
    rw [List.countP_cons, List.countP_cons, List.length_cons]
    cases hp : p x with
    | false =>
      cases hq : q x with
      | false => simp [hp, hq]; omega
      | true => simp [hp, hq]; omega
    | true =>
      have hq : q x = false := by
        cases hq2 : q x
        · rfl
        · exact (hpq x hp hq2).elim
      simp [hp, hq]
      omega

theorem startsLower_startsUpper_exclusive (t : String) :
    ¬(startsLower t = true ∧ startsUpper t = true) := by
  rintro ⟨h1, h2⟩
  simp only [startsLower, isLowerCh, Bool.and_eq_true, decide_eq_true_eq] at h1
  simp only [startsUpper, isUpperCh, Bool.and_eq_true, decide_eq_true_eq] at h2
  omega

/-! ### Helper lemmas: response-time scan -/

theorem response_times_sound :
    ∀ msgs : List Message, ∀ d ∈ response_times msgs, 0 < d ∧ d < 1440 := by
  intro msgs
  induction msgs with
  | nil => intro d hd; simp [response_times] at hd
  | cons a tl ih =>
    cases tl with
    | nil => intro d hd; simp [response_times] at hd
    | cons b rest =>
      intro d hd
      rw [response_times] at hd
      rcases List.mem_append.mp hd with h | h
      · split at h
        · split at h
          · split at h
            · rcases List.mem_singleton.mp h with rfl
              assumption
            · simp at h
          · simp at h
        · simp at h
      · exact ih d h

theorem response_times_mem_of_pair (pre : List Message) (a b : Message) (post : List Message)
    (ha : a.is_from_me = false) (hb : b.is_from_me = true)
    (t1 t2 : Int) (h1 : a.date = some t1) (h2 : b.date = some t2)
    (hpos : 0 < ((t2 - t1 : Int) : Rat) / 60) (hlt : ((t2 - t1 : Int) : Rat) / 60 < 1440) :
    ((t2 - t1 : Int) : Rat) / 60 ∈ response_times (pre ++ a :: b :: post) := by
  induction pre with
  | nil =>
    rw [List.nil_append, response_times]
    refine List.mem_append.mpr (Or.inl ?_)
    rw [hb, ha, h1, h2]
    simp only [Bool.not_false, Bool.and_self, if_true]
    rw [if_pos ⟨hpos, hlt⟩]
    exact List.mem_singleton.mpr rfl
  | cons p pre ih =>
    rcases hsplit : pre ++ a :: b :: post with _ | ⟨q, rest⟩
    · cases pre <;> simp at hsplit
    · rw [List.cons_append, hsplit, response_times]
      exact List.mem_append.mpr (Or.inr (hsplit ▸ ih))

/-! ### Helper lemmas: the timing analyses read only flags and dates -/

theorem burstLengthsAux_view :
    ∀ (l1 l2 : List Message) (cur : Nat),
      l1.map Message.is_from_me = l2.map Message.is_from_me →
      burstLengthsAux cur l1 = burstLengthsAux cur l2 := by
  intro l1
  induction l1 with
  | nil =>
    intro l2 cur h
    cases l2 with
    | nil => rfl
    | cons m2 ms2 => simp at h
  | cons m ms ih =>
    intro l2 cur h
    cases l2 with
    | nil => simp at h
    | cons m2 ms2 =>
      simp only [List.map_cons, List.cons.injEq] at h
      obtain ⟨hm, hms⟩ := h
      show burstLengthsAux cur (m :: ms) = burstLengthsAux cur (m2 :: ms2)
      rw [burstLengthsAux, burstLengthsAux, hm]
      by_cases hf : m2.is_from_me = true
      · rw [if_pos hf, if_pos hf]
        exact ih ms2 (cur + 1) hms
      · rw [if_neg hf, if_neg hf]
        by_cases hc : 1 < cur
        · rw [if_pos hc, if_pos hc, ih ms2 0 hms]
        · rw [if_neg hc, if_neg hc]
          exact ih ms2 0 hms

theorem countResponses_view :
    ∀ l1 l2 : List Message,
      l1.map Message.is_from_me = l2.map Message.is_from_me →
      countResponses l1 = countResponses l2 := by
  intro l1
  induction l1 with
  | nil =>
    intro l2 h
    cases l2 with
    | nil => rfl
    | cons m2 ms2 => simp at h
  | cons a tl ih =>
    intro l2 h
    cases l2 with
    | nil => simp at h
    | cons a2 tl2 =>
      simp only [List.map_cons, List.cons.injEq] at h
      obtain ⟨hm, hms⟩ := h
      cases tl with
      | nil =>
        cases tl2 with
        | nil => rfl
        | cons b2 r2 => simp at hms
      | cons b r =>
        cases tl2 with
        | nil => simp at hms
        | cons b2 r2 =>
          have hb : b.is_from_me = b2.is_from_me := by
            simpa using congrArg (fun l => l.headD true) hms
          show countResponses (a :: b :: r) = countResponses (a2 :: b2 :: r2)
          rw [countResponses, countResponses, hm, hb, ih (b2 :: r2) hms]

theorem response_times_view :
    ∀ l1 l2 : List Message,
      l1.map timingView = l2.map timingView →
      response_times l1 = response_times l2 := by
  intro l1
  induction l1 with
  | nil =>
    intro l2 h
    cases l2 with
    | nil => rfl
    | cons m2 ms2 => simp at h
  | cons a tl ih =>
    intro l2 h
    cases l2 with
    | nil => simp at h
    | cons a2 tl2 =>
      simp only [List.map_cons, List.cons.injEq] at h
      obtain ⟨hm, hms⟩ := h
      have hmf : a.is_from_me = a2.is_from_me := congrArg Prod.fst hm
      have hmd : a.date = a2.date := congrArg Prod.snd hm
      cases tl with
      | nil =>
        cases tl2 with
        | nil => rfl
        | cons b2 r2 => simp at hms
      | cons b r =>
        cases tl2 with
        | nil => simp at hms
        | cons b2 r2 =>
          have hbv : timingView b = timingView b2 := by
            simpa using congrArg (fun l => l.headD (true, none)) hms
          have hbf : b.is_from_me = b2.is_from_me := congrArg Prod.fst hbv
          have hbd : b.date = b2.date := congrArg Prod.snd hbv
          show response_times (a :: b :: r) = response_times (a2 :: b2 :: r2)
          rw [response_times, response_times, hmf, hmd, hbf, hbd, ih (b2 :: r2) hms]

/-! ### Helper lemmas: subject subset and sample-size gate -/

theorem myMessages_length_of_nonempty_text (msgs : List Message)
    (h : ∀ m ∈ msgs, m.text ≠ "") :
    (myMessagesOf msgs).length = msgs.countP (fun m => m.is_from_me) := by
  unfold myMessagesOf
  rw [← List.countP_eq_length_filter]
  induction msgs with
  | nil => rfl
  | cons m ms ih =>
    rw [List.countP_cons, List.countP_cons]
    have hm : (m.text != "") = true := bne_iff_ne.mpr (h m (List.mem_cons_self _ _))
    rw [ih (fun x hx => h x (List.mem_cons_of_mem _ hx))]
    simp [hm]

/-! ### Helper lemmas: tokens of a constant corpus -/

theorem flatten_replicate_singleton (n : Nat) (w : α) :
    (List.replicate n [w]).flatten = List.replicate n w := by
  induction n with
  | zero => rfl
  | succ k ih => simp [List.replicate_succ, ih]

theorem dedupFirst_length_eq_card [DecidableEq α] (l : List α) :
    (dedupFirst l).length = l.toFinset.card := by
  have h1 : (dedupFirst l).toFinset = l.toFinset := by
    ext a
    simp [List.mem_toFinset, mem_dedupFirst]
  rw [← h1, List.toFinset_card_of_nodup (nodup_dedupFirst l)]

/-! ### Helper lemmas: topic table -/

theorem filterMap_score_eq_filter (g : α → Nat) (name : α → String) :
    ∀ l : List α,
      (l.filterMap (fun p => if 5 ≤ g p then some (name p, g p) else none)) =
        (l.map (fun p => (name p, g p))).filter (fun q => 5 ≤ q.2) := by
  intro l
  induction l with
  | nil => rfl
  | cons x xs ih =>
    by_cases h : 5 ≤ g x
    · simp [List.filterMap_cons, List.filter_cons, h, ih]
    · simp [List.filterMap_cons, List.filter_cons, h, ih]

/-! ### Claim theorems -/

/-- Claim C1: on a corpus whose messages all carry non-empty text (the stated
data-model invariant), `analyze_style` returns `none` exactly when fewer than
20 messages have `is_from_me = true`, and returns a profile record exactly
when at least 20 do. -/
theorem analyze_style_no_profile_iff (nlp : NLP) (msgs : List Message)
    (h : ∀ m ∈ msgs, m.text ≠ "") :
    (analyze_style nlp msgs = none ↔ msgs.countP (fun m => m.is_from_me) < 20)
    ∧ ((analyze_style nlp msgs).isSome ↔ 20 ≤ msgs.countP (fun m => m.is_from_me)) := by
  have hlen := myMessages_length_of_nonempty_text msgs h
  by_cases h20 : msgs.countP (fun m => m.is_from_me) < 20
  · have hnone : analyze_style nlp msgs = none := by
      simp only [analyze_style, analyze_style_core]
      rw [hlen, if_pos h20]
    rw [hnone]
    constructor
    · exact iff_of_true rfl h20
    · refine iff_of_false ?_ (by omega)
      simp
  · have hsome : (analyze_style nlp msgs).isSome = true := by
      simp only [analyze_style, analyze_style_core]
      rw [hlen, if_neg h20]
      rfl
    constructor
    · refine iff_of_false ?_ h20
      intro hn
      rw [hn] at hsome
      simp at hsome
    · exact iff_of_true hsome (by omega)

theorem analyze_style_no_profile_iff_witness :
    (∀ m ∈ List.replicate 20 (⟨"hi", true, some 0⟩ : Message), m.text ≠ "")
    ∧ ((analyze_style simpleNLP (List.replicate 20 ⟨"hi", true, some 0⟩) = none
          ↔ (List.replicate 20 (⟨"hi", true, some 0⟩ : Message)).countP
              (fun m => m.is_from_me) < 20)
        ∧ ((analyze_style simpleNLP (List.replicate 20 ⟨"hi", true, some 0⟩)).isSome
          ↔ 20 ≤ (List.replicate 20 (⟨"hi", true, some 0⟩ : Message)).countP
              (fun m => m.is_from_me))) :=
  ⟨by decide, analyze_style_no_profile_iff simpleNLP _ (by decide)⟩

/-- Claim C2: the analysis is deterministic.  Two runs on the same corpus with
the same external lexicons produce identical profiles, even though each run may
enumerate the three hard-coded Python `set` lexicons (slang, greetings,
farewells) in a different arbitrary order: every set-derived list in the
profile passes through an explicit sort (or only its length is used), so any
permutation of the set-enumeration order yields the same profile, every
list-valued field included. -/
theorem analyze_style_deterministic (nlp : NLP) (c1 c2 : List Message) (hc : c1 = c2)
    (s1 g1 f1 s2 g2 f2 : List String)
    (hs1 : List.Perm s1 slang_words) (hs2 : List.Perm s2 slang_words)
    (hg1 : List.Perm g1 greetings) (hg2 : List.Perm g2 greetings)
    (hf1 : List.Perm f1 farewells) (hf2 : List.Perm f2 farewells) :
    analyze_style_core s1 g1 f1 nlp c1 = analyze_style_core s2 g2 f2 nlp c2 := by
  subst hc
  have hs := hs1.trans hs2.symm
  have hg := hg1.trans hg2.symm
  have hf := hf1.trans hf2.symm
  simp only [analyze_style_core]
  by_cases h20 : (myMessagesOf c1).length < 20
  · rw [if_pos h20, if_pos h20]
  · rw [if_neg h20, if_neg h20, styleSecOf_perm hs, vocabSecOf_perm hs hg hf]

theorem analyze_style_deterministic_witness :
    analyze_style_core slang_words.reverse greetings.reverse farewells.reverse simpleNLP
        (List.replicate 20 ⟨"hi", true, some 0⟩) =
      analyze_style_core slang_words greetings farewells simpleNLP
        (List.replicate 20 ⟨"hi", true, some 0⟩) :=
  analyze_style_deterministic simpleNLP _ _ rfl _ _ _ _ _ _
    (List.reverse_perm _) (List.Perm.refl _) (List.reverse_perm _) (List.Perm.refl _)
    (List.reverse_perm _) (List.Perm.refl _)

/-- Claim C4: on the corpus `[them, me, me, me, them, me]` (in time order),
burst detection yields `burst_lengths = [3]`, `consecutive_bursts = 1`,
`total_responses = 2`, and a multi-message tendency of
`consecutive_bursts / total_responses = 0.5`. -/
theorem burst_counting_example :
    burst_lengths sixMessageCorpus = [3]
    ∧ consecutive_bursts sixMessageCorpus = 1
    ∧ total_responses sixMessageCorpus = 2
    ∧ (consecutive_bursts sixMessageCorpus : Rat) / (total_responses sixMessageCorpus : Rat)
        = 1 / 2
    ∧ (behaviorSecOf sixMessageCorpus).multi_message_tendency = 1 / 2 := by
  have hbl : burst_lengths sixMessageCorpus = [3] := rfl
  have htr : total_responses sixMessageCorpus = 2 := rfl
  refine ⟨rfl, rfl, rfl, ?_, ?_⟩
  · rw [consecutive_bursts, hbl, htr]
    norm_num
  · simp only [behaviorSecOf, consecutive_bursts, hbl, htr]
    norm_num [roundTo, roundHalfEven, min_def]

/-- Claim C5: for a non-empty subject subset, the capitalization label is
`"never"` iff strictly more than 80% of the texts start with a lowercase
letter, `"always"` iff strictly more than 80% start with an uppercase letter,
and `"mixed"` otherwise; a lowercase-start ratio of exactly 0.8 does not
exceed the threshold and yields `"mixed"`. -/
theorem capitalization_threshold_spec (texts : List String) (hne : texts ≠ []) :
    (capitalization texts = "never"
      ↔ (0.8 : Rat) < (texts.countP startsLower : Rat) / (texts.length : Rat))
    ∧ (capitalization texts = "always"
      ↔ (0.8 : Rat) < (texts.countP startsUpper : Rat) / (texts.length : Rat))
    ∧ (capitalization texts = "mixed"
      ↔ ((texts.countP startsLower : Rat) / (texts.length : Rat) ≤ 0.8
          ∧ (texts.countP startsUpper : Rat) / (texts.length : Rat) ≤ 0.8))
    ∧ ((texts.countP startsLower : Rat) / (texts.length : Rat) = 0.8 →
        capitalization texts = "mixed") := by
  have hlen0 : 0 < texts.length := List.length_pos.mpr hne
  have hlen : (0 : Rat) < (texts.length : Rat) := by exact_mod_cast hlen0
  have hsum : texts.countP startsLower + texts.countP startsUpper ≤ texts.length :=
    countP_add_countP_le_length _ _
      (fun t h1 h2 => startsLower_startsUpper_exclusive t ⟨h1, h2⟩) texts
  have hsumq : ((texts.countP startsLower : Rat) + (texts.countP startsUpper : Rat))
      ≤ (texts.length : Rat) := by exact_mod_cast hsum
  have hexcl : ¬((0.8 : Rat) < (texts.countP startsLower : Rat) / (texts.length : Rat)
      ∧ (0.8 : Rat) < (texts.countP startsUpper : Rat) / (texts.length : Rat)) := by
    rintro ⟨h1, h2⟩
    rw [lt_div_iff₀ hlen] at h1 h2
    linarith
  refine ⟨?_, ?_, ?_, ?_⟩
  · unfold capitalization
    by_cases hl : (0.8 : Rat) < (texts.countP startsLower : Rat) / (texts.length : Rat)
    · rw [if_pos hl]
      exact iff_of_true rfl hl
    · rw [if_neg hl]
      by_cases hu : (0.8 : Rat) < (texts.countP startsUpper : Rat) / (texts.length : Rat)
      · rw [if_pos hu]
        exact iff_of_false (by decide) hl
      · rw [if_neg hu]
        exact iff_of_false (by decide) hl
  · unfold capitalization
    by_cases hl : (0.8 : Rat) < (texts.countP startsLower : Rat) / (texts.length : Rat)
    · rw [if_pos hl]
      exact iff_of_false (by decide) (fun hu => hexcl ⟨hl, hu⟩)
    · rw [if_neg hl]
      by_cases hu : (0.8 : Rat) < (texts.countP startsUpper : Rat) / (texts.length : Rat)
      · rw [if_pos hu]
        exact iff_of_true rfl hu
      · rw [if_neg hu]
        exact iff_of_false (by decide) hu
  · unfold capitalization
    by_cases hl : (0.8 : Rat) < (texts.countP startsLower : Rat) / (texts.length : Rat)
    · rw [if_pos hl]
      exact iff_of_false (by decide) (fun hc => absurd hl (not_lt.mpr hc.1))
    · rw [if_neg hl]
      by_cases hu : (0.8 : Rat) < (texts.countP startsUpper : Rat) / (texts.length : Rat)
      · rw [if_pos hu]
        exact iff_of_false (by decide) (fun hc => absurd hu (not_lt.mpr hc.2))
      · rw [if_neg hu]
        exact iff_of_true rfl ⟨not_lt.mp hl, not_lt.mp hu⟩
  · intro heq
    have hl : ¬(0.8 : Rat) < (texts.countP startsLower : Rat) / (texts.length : Rat) := by
      rw [heq]
      exact lt_irrefl _
    have hlow : (texts.countP startsLower : Rat) = 0.8 * (texts.length : Rat) :=
      (div_eq_iff (ne_of_gt hlen)).mp heq
    have hu : ¬(0.8 : Rat) < (texts.countP startsUpper : Rat) / (texts.length : Rat) := by
      rw [not_lt, div_le_iff₀ hlen]
      linarith
    unfold capitalization
    rw [if_neg hl, if_neg hu]

theorem capitalization_threshold_spec_witness :
    ((["go", "hm", "ok", "no", "Yes"] : List String) ≠ [])
    ∧ ((capitalization ["go", "hm", "ok", "no", "Yes"] = "never"
        ↔ (0.8 : Rat) < ((["go", "hm", "ok", "no", "Yes"] : List String).countP startsLower : Rat)
            / (((["go", "hm", "ok", "no", "Yes"] : List String)).length : Rat))
      ∧ (capitalization ["go", "hm", "ok", "no", "Yes"] = "always"
        ↔ (0.8 : Rat) < ((["go", "hm", "ok", "no", "Yes"] : List String).countP startsUpper : Rat)
            / (((["go", "hm", "ok", "no", "Yes"] : List String)).length : Rat))
      ∧ (capitalization ["go", "hm", "ok", "no", "Yes"] = "mixed"
        ↔ (((["go", "hm", "ok", "no", "Yes"] : List String).countP startsLower : Rat)
              / (((["go", "hm", "ok", "no", "Yes"] : List String)).length : Rat) ≤ 0.8
            ∧ ((["go", "hm", "ok", "no", "Yes"] : List String).countP startsUpper : Rat)
              / (((["go", "hm", "ok", "no", "Yes"] : List String)).length : Rat) ≤ 0.8))
      ∧ (((["go", "hm", "ok", "no", "Yes"] : List String).countP startsLower : Rat)
            / (((["go", "hm", "ok", "no", "Yes"] : List String)).length : Rat) = 0.8 →
          capitalization ["go", "hm", "ok", "no", "Yes"] = "mixed")) :=
  ⟨by decide, capitalization_threshold_spec ["go", "hm", "ok", "no", "Yes"] (by decide)⟩

/-- Claim C3: the analyzer's emoji frequency equals the total number of
emoji-pattern matches across all subject texts divided by the subject message
count (and is reported rounded to 3 decimals); the top-emoji list is the
(at most) 5 most frequent matches: the kept entries carry their true counts,
appear in strictly descending count order with ties broken by
first-encountered position, and no omitted match is strictly more frequent
than any kept one. -/
theorem emoji_stats_spec (texts : List String) (hne : texts ≠ []) :
    emoji_freq texts
        = ((texts.map (fun t => (emojiRuns t).length)).sum : Rat) / (texts.length : Rat)
    ∧ (emojiSecOf texts).frequency = roundTo (emoji_freq texts) 3
    ∧ (emojiSecOf texts).top_emojis = (mostCommon (all_emojis texts) 5).map Prod.fst
    ∧ (emojiSecOf texts).top_emojis.length ≤ 5
    ∧ List.Pairwise (tieOrder (all_emojis texts)) (mostCommon (all_emojis texts) 5)
    ∧ (∀ p ∈ mostCommon (all_emojis texts) 5,
        p.1 ∈ all_emojis texts ∧ p.2 = (all_emojis texts).count p.1)
    ∧ (∀ e ∈ all_emojis texts, e ∉ (emojiSecOf texts).top_emojis →
        ∀ p ∈ mostCommon (all_emojis texts) 5, (all_emojis texts).count e ≤ p.2) := by
  refine ⟨?_, rfl, rfl, ?_, pairwise_tieOrder_mostCommon _ 5, ?_, ?_⟩
  · rw [emoji_freq, if_pos (List.length_pos.mpr hne)]
    congr 1
    rw [all_emojis, List.length_flatten, List.map_map]
    rfl
  · show ((mostCommon (all_emojis texts) 5).map Prod.fst).length ≤ 5
    rw [List.length_map]
    exact length_mostCommon_le _ 5
  · intro p hp
    exact mem_mostCommon hp
  · intro e he hnot p hp
    refine mostCommon_maximal he ?_ p hp
    intro c hc
    exact hnot (List.mem_map.mpr ⟨(e, c), hc, rfl⟩)

theorem emoji_stats_spec_witness :
    (["hug 😀", "ok"] : List String) ≠ []
    ∧ (emojiSecOf ["hug 😀", "ok"]).top_emojis.length ≤ 5
    ∧ List.Pairwise (tieOrder (all_emojis ["hug 😀", "ok"]))
        (mostCommon (all_emojis ["hug 😀", "ok"]) 5) :=
  ⟨by decide, (emoji_stats_spec ["hug 😀", "ok"] (by decide)).2.2.2.1,
    (emoji_stats_spec ["hug 😀", "ok"] (by decide)).2.2.2.2.1⟩

/-- Claim C6: every recorded response-time sample lies strictly between 0 and
1440 minutes (so a pair with delta 1500 or delta 0 is never recorded), and
conversely the delta of every adjacent other-party→subject pair whose two
timestamps parse and whose delta lies in the open window is recorded. -/
theorem response_time_window_spec (msgs : List Message) :
    (∀ d ∈ response_times msgs, 0 < d ∧ d < 1440)
    ∧ (1500 : Rat) ∉ response_times msgs
    ∧ (0 : Rat) ∉ response_times msgs
    ∧ (∀ (pre post : List Message) (a b : Message) (t1 t2 : Int),
        a.is_from_me = false → b.is_from_me = true →
        a.date = some t1 → b.date = some t2 →
        0 < ((t2 - t1 : Int) : Rat) / 60 → ((t2 - t1 : Int) : Rat) / 60 < 1440 →
        ((t2 - t1 : Int) : Rat) / 60 ∈ response_times (pre ++ a :: b :: post)) := by
  refine ⟨response_times_sound msgs, ?_, ?_, ?_⟩
  · intro hmem
    have hlt := (response_times_sound msgs 1500 hmem).2
    norm_num at hlt
  · intro hmem
    exact lt_irrefl 0 (response_times_sound msgs 0 hmem).1
  · intro pre post a b t1 t2 ha hb h1 h2 hpos hlt
    exact response_times_mem_of_pair pre a b post ha hb t1 t2 h1 h2 hpos hlt

theorem response_time_window_spec_witness :
    ((600 - 0 : Int) : Rat) / 60
      ∈ response_times [⟨"q", false, some 0⟩, ⟨"r", true, some 600⟩] :=
  (response_time_window_spec []).2.2.2 [] [] ⟨"q", false, some 0⟩ ⟨"r", true, some 600⟩ 0 600
    rfl rfl rfl rfl (by norm_num) (by norm_num)

/-- Claim C7: vocabulary richness equals the number of distinct word tokens
divided by the total number of word tokens, is 0 when no tokens exist, and on
a corpus of `n > 0` copies of one message that tokenizes to a single word it
equals `1 / n`. -/
theorem vocabulary_richness_spec (nlp : NLP) (texts : List String) :
    vocabulary_richness nlp texts
        = ((all_tokens nlp texts).toFinset.card : Rat) / ((all_tokens nlp texts).length : Rat)
    ∧ (all_tokens nlp texts = [] → vocabulary_richness nlp texts = 0)
    ∧ (∀ (s w : String) (n : Nat), 0 < n → texts = List.replicate n s →
        (nlp.word_tokenize s.toLower).filter isalphaStr = [w] →
        vocabulary_richness nlp texts = 1 / (n : Rat)) := by
  have hmain : ∀ nlp2 texts2, vocabulary_richness nlp2 texts2
      = ((all_tokens nlp2 texts2).toFinset.card : Rat)
          / ((all_tokens nlp2 texts2).length : Rat) := by
    intro nlp2 texts2
    simp only [vocabulary_richness]
    cases htk : all_tokens nlp2 texts2 with
    | nil => simp
    | cons x xs =>
      rw [if_neg (by simp)]
      rw [dedupFirst_length_eq_card]
  refine ⟨hmain nlp texts, ?_, ?_⟩
  · intro h0
    simp only [vocabulary_richness, h0]
    rfl
  · intro s w n hn htexts htok
    subst htexts
    have htoks : all_tokens nlp (List.replicate n s) = List.replicate n w := by
      rw [all_tokens, List.map_replicate, htok, flatten_replicate_singleton]
    rw [hmain nlp (List.replicate n s), htoks,
      List.toFinset_replicate_of_ne_zero hn.ne', List.length_replicate]
    simp

theorem vocabulary_richness_spec_witness :
    ((helloNLP.word_tokenize ("hello").toLower).filter isalphaStr = ["hello"])
    ∧ vocabulary_richness helloNLP (List.replicate 4 "hello") = 1 / (4 : Rat) :=
  ⟨by decide,
    (vocabulary_richness_spec helloNLP (List.replicate 4 "hello")).2.2 "hello" "hello" 4
      (by decide) rfl (by decide)⟩

/-- Claim C8: a topic enters the qualifying score table iff its keyword score
over the concatenated lower-cased subject text is at least 5 (a score of
exactly 5 qualifies, 4 does not); the reported common-topics list is the
(at most 5) qualifying topics sorted by strictly descending score with ties
broken by the declaration order of the topic table, and when at most 5 topics
qualify every qualifying topic is reported. -/
theorem common_topics_spec (texts : List String) :
    topic_scores texts
        = (topic_keywords.map (fun p => (p.1, topic_score (all_text texts) p.2))).filter
            (fun q => 5 ≤ q.2)
    ∧ common_topics texts = ((sortByCountDesc (topic_scores texts)).take 5).map Prod.fst
    ∧ (common_topics texts).length ≤ 5
    ∧ List.Pairwise
        (fun a b : String × Nat =>
          b.2 < a.2 ∨ (a.2 = b.2 ∧ firstIdx topic_names a.1 < firstIdx topic_names b.1))
        ((sortByCountDesc (topic_scores texts)).take 5)
    ∧ ((topic_scores texts).length ≤ 5 →
        ∀ p ∈ topic_scores texts, p.1 ∈ common_topics texts)
    ∧ (∀ t ∈ common_topics texts, ∃ p ∈ topic_scores texts, p.1 = t ∧ 5 ≤ p.2) := by
  have hsc : topic_scores texts
      = (topic_keywords.map (fun p => (p.1, topic_score (all_text texts) p.2))).filter
          (fun q => 5 ≤ q.2) := by
    rw [topic_scores]
    exact filterMap_score_eq_filter (fun p => topic_score (all_text texts) p.2) Prod.fst
      topic_keywords
  have hTkw : List.Pairwise
      (fun a b : String × List String => firstIdx topic_names a.1 < firstIdx topic_names b.1)
      topic_keywords := by decide
  have hTmap : List.Pairwise
      (fun a b : String × Nat => firstIdx topic_names a.1 < firstIdx topic_names b.1)
      (topic_keywords.map (fun p => (p.1, topic_score (all_text texts) p.2))) := by
    refine List.pairwise_map.mpr ?_
    exact hTkw
  have hTsc : List.Pairwise
      (fun a b : String × Nat => firstIdx topic_names a.1 < firstIdx topic_names b.1)
      (topic_scores texts) := by
    rw [hsc]
    exact hTmap.filter _
  have hsort := pairwise_sortByCountDesc
    (fun a b : String × Nat => firstIdx topic_names a.1 < firstIdx topic_names b.1)
    (topic_scores texts) hTsc
  refine ⟨hsc, rfl, ?_, ?_, ?_, ?_⟩
  · show (((sortByCountDesc (topic_scores texts)).take 5).map Prod.fst).length ≤ 5
    rw [List.length_map]
    exact List.length_take_le 5 _
  · exact hsort.sublist (List.take_sublist 5 _)
  · intro hle p hp
    have hlen : (sortByCountDesc (topic_scores texts)).length ≤ 5 :=
      le_trans (le_of_eq (sortByCountDesc_perm _).length_eq) hle
    show p.1 ∈ ((sortByCountDesc (topic_scores texts)).take 5).map Prod.fst
    rw [List.take_of_length_le hlen]
    exact List.mem_map.mpr ⟨p, mem_sortByCountDesc.mpr hp, rfl⟩
  · intro t ht
    rcases List.mem_map.mp ht with ⟨p, hp, rfl⟩
    have hmem : p ∈ topic_scores texts :=
      mem_sortByCountDesc.mp (List.mem_of_mem_take hp)
    refine ⟨p, hmem, rfl, ?_⟩
    have := (List.mem_filter.mp (hsc ▸ hmem)).2
    exact of_decide_eq_true this

theorem common_topics_spec_witness :
    (common_topics ["food eat dinner lunch hungry pizza"]).length ≤ 5 :=
  (common_topics_spec ["food eat dinner lunch hungry pizza"]).2.2.1

/-- Claim C9: for a non-empty subject subset the tone label is `"positive"`
iff the average compound score exceeds 0.15, `"negative"` iff it is below
-0.15, otherwise `"mixed"` iff the fraction of messages scoring above 0.05
exceeds 0.4 and the fraction scoring below -0.05 exceeds 0.2, otherwise
`"neutral"`; the positivity and negativity ratios are those two fractions
(reported rounded to 3 decimals) regardless of the label. -/
theorem tone_label_spec (nlp : NLP) (texts : List String) (hne : texts ≠ [])
    (_hrange : ∀ t ∈ texts, -1 ≤ nlp.compound t ∧ nlp.compound t ≤ 1) :
    (tone_label (avg_compound nlp texts) (pos_ratio nlp texts) (neg_ratio nlp texts)
        = "positive" ↔ 0.15 < avg_compound nlp texts)
    ∧ (tone_label (avg_compound nlp texts) (pos_ratio nlp texts) (neg_ratio nlp texts)
        = "negative" ↔ avg_compound nlp texts < -0.15)
    ∧ (avg_compound nlp texts ≤ 0.15 → -0.15 ≤ avg_compound nlp texts →
        (tone_label (avg_compound nlp texts) (pos_ratio nlp texts) (neg_ratio nlp texts)
            = "mixed" ↔ (0.4 < pos_ratio nlp texts ∧ 0.2 < neg_ratio nlp texts)))
    ∧ (avg_compound nlp texts ≤ 0.15 → -0.15 ≤ avg_compound nlp texts →
        ¬(0.4 < pos_ratio nlp texts ∧ 0.2 < neg_ratio nlp texts) →
        tone_label (avg_compound nlp texts) (pos_ratio nlp texts) (neg_ratio nlp texts)
          = "neutral")
    ∧ pos_ratio nlp texts
        = ((compoundsOf nlp texts).countP (fun c => decide (0.05 < c)) : Rat)
            / ((compoundsOf nlp texts).length : Rat)
    ∧ neg_ratio nlp texts
        = ((compoundsOf nlp texts).countP (fun c => decide (c < -0.05)) : Rat)
            / ((compoundsOf nlp texts).length : Rat)
    ∧ (sentimentSecOf nlp texts).positivity_ratio = roundTo (pos_ratio nlp texts) 3
    ∧ (sentimentSecOf nlp texts).negativity_ratio = roundTo (neg_ratio nlp texts) 3
    ∧ (sentimentSecOf nlp texts).tone_label
        = tone_label (avg_compound nlp texts) (pos_ratio nlp texts) (neg_ratio nlp texts) := by
  have hcs : ((compoundsOf nlp texts).isEmpty = true) = False := by
    simp [compoundsOf, List.isEmpty_iff, hne]
  refine ⟨?_, ?_, ?_, ?_, ?_, ?_, rfl, rfl, rfl⟩
  · unfold tone_label
    by_cases h1 : (0.15 : Rat) < avg_compound nlp texts
    · rw [if_pos h1]
      exact iff_of_true rfl h1
    · rw [if_neg h1]
      by_cases h2 : avg_compound nlp texts < -0.15
      · rw [if_pos h2]
        exact iff_of_false (by decide) h1
      · rw [if_neg h2]
        by_cases h3 : (0.4 : Rat) < pos_ratio nlp texts ∧ (0.2 : Rat) < neg_ratio nlp texts
        · rw [if_pos h3]
          exact iff_of_false (by decide) h1
        · rw [if_neg h3]
          exact iff_of_false (by decide) h1
  · unfold tone_label
    by_cases h1 : (0.15 : Rat) < avg_compound nlp texts
    · rw [if_pos h1]
      refine iff_of_false (by decide) (not_lt.mpr ?_)
      linarith
    · rw [if_neg h1]
      by_cases h2 : avg_compound nlp texts < -0.15
      · rw [if_pos h2]
        exact iff_of_true rfl h2
      · rw [if_neg h2]
        by_cases h3 : (0.4 : Rat) < pos_ratio nlp texts ∧ (0.2 : Rat) < neg_ratio nlp texts
        · rw [if_pos h3]
          exact iff_of_false (by decide) h2
        · rw [if_neg h3]
          exact iff_of_false (by decide) h2
  · intro ha1 ha2
    unfold tone_label
    rw [if_neg (not_lt.mpr ha1), if_neg (not_lt.mpr ha2)]
    by_cases h3 : (0.4 : Rat) < pos_ratio nlp texts ∧ (0.2 : Rat) < neg_ratio nlp texts
    · rw [if_pos h3]
      exact iff_of_true rfl h3
    · rw [if_neg h3]
      exact iff_of_false (by decide) h3
  · intro ha1 ha2 h3
    unfold tone_label
    rw [if_neg (not_lt.mpr ha1), if_neg (not_lt.mpr ha2), if_neg h3]
  · simp only [pos_ratio]
    rw [if_neg (by rw [hcs]; exact not_false)]
  · simp only [neg_ratio]
    rw [if_neg (by rw [hcs]; exact not_false)]

theorem tone_label_spec_witness :
    (∀ t ∈ (["ok", "hm"] : List String), -1 ≤ simpleNLP.compound t ∧ simpleNLP.compound t ≤ 1)
    ∧ (sentimentSecOf simpleNLP ["ok", "hm"]).tone_label
        = tone_label (avg_compound simpleNLP ["ok", "hm"]) (pos_ratio simpleNLP ["ok", "hm"])
            (neg_ratio simpleNLP ["ok", "hm"]) :=
  ⟨by
      intro t ht
      constructor <;> norm_num [simpleNLP],
    (tone_label_spec simpleNLP ["ok", "hm"] (by decide)
      (by
        intro t ht
        constructor <;> norm_num [simpleNLP])).2.2.2.2.2.2.2.2⟩

/-- Claim C10: a subject message whose text is empty (or absent) is excluded
from the subject subset — it is never in `my_messages`, so it counts toward
neither the 20-message minimum nor `total_messages_from_you` nor any
style/vocabulary/sentiment statistic — while burst detection, total-responses
counting and response-time pairing observe only `is_from_me` and `date`, so
the same message still participates in them as a subject message: on
`[them, me "hi", me ""]` the burst scan records a burst of length 2 although
the subject subset holds a single message. -/
theorem empty_text_subject_spec :
    (∀ (msgs : List Message) (m : Message), m ∈ msgs → m.is_from_me = true →
        m.text = "" → m ∉ myMessagesOf msgs)
    ∧ (∀ msgs1 msgs2 : List Message, msgs1.map timingView = msgs2.map timingView →
        burst_lengths msgs1 = burst_lengths msgs2
          ∧ total_responses msgs1 = total_responses msgs2
          ∧ response_times msgs1 = response_times msgs2)
    ∧ burst_lengths [⟨"ok", false, some 0⟩, ⟨"hi", true, some 60⟩, ⟨"", true, some 120⟩] = [2]
    ∧ myMessagesOf [⟨"ok", false, some 0⟩, ⟨"hi", true, some 60⟩, ⟨"", true, some 120⟩]
        = [⟨"hi", true, some 60⟩] := by
  refine ⟨?_, ?_, rfl, rfl⟩
  · intro msgs m hm hfm htext hmem
    have hpred := (List.mem_filter.mp hmem).2
    rw [htext] at hpred
    simp at hpred
  · intro msgs1 msgs2 hview
    have hflags : msgs1.map Message.is_from_me = msgs2.map Message.is_from_me := by
      have h2 := congrArg (fun l => l.map (fun p : Bool × Option Int => p.1)) hview
      simpa [List.map_map, Function.comp, timingView] using h2
    refine ⟨burstLengthsAux_view msgs1 msgs2 0 hflags, ?_,
      response_times_view msgs1 msgs2 hview⟩
    rw [total_responses, total_responses, countResponses_view msgs1 msgs2 hflags]

theorem empty_text_subject_spec_witness :
    (⟨"", true, some 5⟩ : Message) ∉ myMessagesOf [⟨"", true, some 5⟩] :=
  empty_text_subject_spec.1 [⟨"", true, some 5⟩] ⟨"", true, some 5⟩
    (List.mem_singleton.mpr rfl) rfl rfl

end ExtractStyle
